import Mathlib

/-!
Verification of the MIDI event extraction engine of OpenGamesAutoPlay.

The definitions below are a shallow embedding of `src/groups.py` and of the
mido-based analysis paths of `src/midi_analyzer.py` (`MidiAnalyzer.analyze_midi_file`).
Python floats are modelled as exact rationals (ℚ); Python dicts keyed by
`(channel, note)` are modelled as association lists with last-writer-wins
assignment; Python's stable `sorted(..., key=lambda x: x['time'])` is modelled
by a stable insertion sort on the `time` field.
-/

/-! ## groups.py -/

/-- `NOTE_NAMES` from groups.py: the twelve pitch-class names, sharps marked
with `#`.  Names are modelled as lists of characters (Python strings). -/
def NOTE_NAMES : List (List Char) :=
  [['c'], ['c', '#'], ['d'], ['d', '#'], ['e'], ['f'],
   ['f', '#'], ['g'], ['g', '#'], ['a'], ['a', '#'], ['b']]

/-- `GROUPS` from groups.py: the nine named piano register ranges
(label, low MIDI note, high MIDI note), in source order. -/
def GROUPS : List (String × Int × Int) :=
  [("大字二组 (A₂-B₂)", 21, 23),
   ("大字一组 (C₁-B₁)", 24, 35),
   ("大字组 (C-B)", 36, 47),
   ("小字组 (c-b)", 48, 59),
   ("小字一组 (c¹-b¹)", 60, 71),
   ("小字二组 (c²-b²)", 72, 83),
   ("小字三组 (c³-b³)", 84, 95),
   ("小字四组 (c⁴-b⁴)", 96, 107),
   ("小字五组 (c⁵)", 108, 108)]

/-- `group_for_note` from groups.py: first group whose range contains the
note, else the unknown label `"未知"`. -/
def group_for_note (note : Int) : String :=
  match GROUPS.find? (fun g => decide (g.2.1 ≤ note ∧ note ≤ g.2.2)) with
  | some g => g.1
  | none => "未知"

/-- The octave marker and casing logic of the `NOTE_NAME_MAP` construction
loop in groups.py, for a note already known to lie in `[21, 108]`. -/
def noteNameInRange (n : Int) : List Char :=
  let base := NOTE_NAMES.getD (n % 12).toNat []
  if 60 ≤ n then
    base ++ (if n ≤ 71 then ['¹'] else if n ≤ 83 then ['²']
             else if n ≤ 95 then ['³'] else if n ≤ 107 then ['⁴'] else ['⁵'])
  else if 48 ≤ n then base
  else if 36 ≤ n then base.map Char.toUpper
  else if 24 ≤ n then base.map Char.toUpper ++ ['₁']
  else base.map Char.toUpper ++ ['₂']

/-- Python `str(n)` for an integer. -/
def intStr (n : Int) : List Char :=
  if n < 0 then '-' :: Nat.toDigits 10 n.natAbs else Nat.toDigits 10 n.toNat

/-- `get_note_name` from groups.py: table name for notes in `[21, 108]`,
otherwise the decimal print of the raw integer. -/
def get_note_name (n : Int) : List Char :=
  if 21 ≤ n ∧ n ≤ 108 then noteNameInRange n else intStr n

/-! ## Data model of the analyzer -/

/-- Event kind of a produced timeline event. -/
inductive EvType
  | note_on
  | note_off
deriving DecidableEq

/-- A produced timeline event (the dicts appended to `events` in
`analyze_midi_file`).  `duration`/`endTime` are `none` on `note_off` events
(the Python dicts simply lack those keys there). -/
structure Event where
  time : ℚ
  type : EvType
  note : Int
  channel : Nat
  group : String
  track : Nat
  duration : Option ℚ
  endTime : Option ℚ
  velocity : Nat
  is_over_limit : Bool
deriving DecidableEq

/-- Kind of a raw MIDI message as dispatched on `msg.type`. -/
inductive MsgKind
  | note_on
  | note_off
  | set_tempo
  | meta
deriving DecidableEq

/-- A raw mido message: `time` is the delta-time in ticks; `tempo` is only
meaningful on `set_tempo` messages, `channel`/`note`/`velocity` only on note
messages. -/
structure Msg where
  kind : MsgKind
  time : Nat
  channel : Nat
  note : Nat
  velocity : Nat
  tempo : Nat
deriving DecidableEq

/-- A parsed mido file: `ticks_per_beat` plus the track list. -/
structure MidoFile where
  ticks_per_beat : Nat
  tracks : List (List Msg)
deriving DecidableEq

/-- The `key_settings` triple read from config.json. -/
structure KeySettings where
  min_note : Int
  max_note : Int
  black_key_mode : String
deriving DecidableEq

/-- The `analysis_result` dict returned next to the event list.  Optional
fields model keys that are absent (`error`, `warning`) or `None`. -/
structure Summary where
  min_note : Option Int
  max_note : Option Int
  under_min_count : Nat
  over_max_count : Nat
  min_note_name : List Char
  max_note_name : List Char
  min_note_group : String
  max_note_group : String
  is_min_over_limit : Bool
  is_max_over_limit : Bool
  total_over_limit_count : Nat
  config_min_note : Option Int
  config_max_note : Option Int
  transpose : Int
  octave_shift : Int
  black_key_mode : Option String
  warning : Option String
  error : Option String
deriving DecidableEq

/-! ## Active-note dictionary (Python dict keyed by `(channel, note)`) -/

/-- The value stored in `active_notes`. -/
structure ActiveInfo where
  start_time : ℚ
  velocity : Nat
  track : Nat
deriving DecidableEq

/-- Python dict assignment `d[k] = v`: overwrite in place if present,
else append. -/
def dictSet (k : Nat × Nat) (v : ActiveInfo) :
    List ((Nat × Nat) × ActiveInfo) → List ((Nat × Nat) × ActiveInfo)
  | [] => [(k, v)]
  | (k', v') :: rest => if k' = k then (k, v) :: rest else (k', v') :: dictSet k v rest

/-- Python dict lookup `d.get(k)` / `k in d`. -/
def dictGet (k : Nat × Nat) : List ((Nat × Nat) × ActiveInfo) → Option ActiveInfo
  | [] => none
  | (k', v') :: rest => if k' = k then some v' else dictGet k rest

/-- Python `del d[k]`. -/
def dictDel (k : Nat × Nat) :
    List ((Nat × Nat) × ActiveInfo) → List ((Nat × Nat) × ActiveInfo)
  | [] => []
  | (k', v') :: rest => if k' = k then rest else (k', v') :: dictDel k rest

/-! ## Tempo scan and tick-to-second factor (mido paths) -/

/-- First `set_tempo` tempo in a track, if any (the inner scan loop with its
`break`). -/
def firstTempo : List Msg → Option Nat
  | [] => none
  | m :: rest => if m.kind = MsgKind.set_tempo then some m.tempo else firstTempo rest

/-- The tempo scan over all tracks (lines 131-138): each track contributes its
first `set_tempo`; scanning stops at the first track whose first tempo differs
from the 500000 default. -/
def scanTempo : List (List Msg) → Nat
  | [] => 500000
  | tr :: rest =>
    match firstTempo tr with
    | some t => if t = 500000 then scanTempo rest else t
    | none => scanTempo rest

/-- `mido.tempo2bpm(tempo)` of the mido library: `60 * 1e6 / tempo`. -/
def tempo2bpm (tempo : Nat) : ℚ := 60000000 / (tempo : ℚ)

/-- `tick_to_second = mido.tempo2bpm(tempo) / 60.0 / ticks_per_beat`
(line 141), the per-tick factor actually used by the code. -/
def tick_to_second (tempo ticks_per_beat : Nat) : ℚ :=
  tempo2bpm tempo / 60 / (ticks_per_beat : ℚ)

/-! ## Note pairing (lines 144-195) -/

/-- State while walking one track: running absolute tick, the shared
`active_notes` dict, and the shared accumulated `events` list. -/
structure PairState where
  tick : Nat
  active : List ((Nat × Nat) × ActiveInfo)
  events : List Event
deriving DecidableEq

/-- Processing of one message (the body of the inner `for msg in track` loop):
note-on with positive velocity records the start; note-off (or zero-velocity
note-on) pops a matching start, if any, and appends the note_on/note_off event
pair; everything else only advances the tick. -/
def stepMsg (t2s : ℚ) (track_idx : Nat) (st : PairState) (m : Msg) : PairState :=
  let tick := st.tick + m.time
  let ctime : ℚ := (tick : ℚ) * t2s
  if m.kind = MsgKind.note_on ∧ 0 < m.velocity then
    { tick := tick,
      active := dictSet (m.channel, m.note)
        { start_time := ctime, velocity := m.velocity, track := track_idx } st.active,
      events := st.events }
  else if m.kind = MsgKind.note_off ∨ (m.kind = MsgKind.note_on ∧ m.velocity = 0) then
    match dictGet (m.channel, m.note) st.active with
    | some info =>
      { tick := tick,
        active := dictDel (m.channel, m.note) st.active,
        events := st.events ++
          [{ time := info.start_time, type := EvType.note_on, note := (m.note : Int),
             channel := m.channel, group := group_for_note (m.note : Int),
             track := track_idx, duration := some (ctime - info.start_time),
             endTime := some ctime, velocity := info.velocity, is_over_limit := false },
           { time := ctime, type := EvType.note_off, note := (m.note : Int),
             channel := m.channel, group := group_for_note (m.note : Int),
             track := track_idx, duration := none, endTime := none,
             velocity := info.velocity, is_over_limit := false }] }
    | none => { tick := tick, active := st.active, events := st.events }
  else { tick := tick, active := st.active, events := st.events }

/-- Accumulator threaded across tracks: `active_notes` and `events` persist,
the tick counter restarts per track. -/
structure PairAcc where
  active : List ((Nat × Nat) × ActiveInfo)
  events : List Event
deriving DecidableEq

/-- One track of the `for track_idx in selected_tracks` loop. -/
def processTrack (t2s : ℚ) (track_idx : Nat) (msgs : List Msg) (acc : PairAcc) : PairAcc :=
  let st := msgs.foldl (stepMsg t2s track_idx)
    { tick := 0, active := acc.active, events := acc.events }
  { active := st.active, events := st.events }

/-- The full pairing pass over the selected tracks (out-of-range indices are
skipped by the `0 <= track_idx < len(mid.tracks)` guard). -/
def pairTracks (t2s : ℚ) (tracks : List (List Msg)) (sel : List Nat) : PairAcc :=
  sel.foldl
    (fun acc idx =>
      if idx < tracks.length then processTrack t2s idx (tracks.getD idx []) acc else acc)
    { active := [], events := [] }

/-! ## Stable sort by time (Python `sorted`/`list.sort` with `key=time`) -/

/-- Insert an event after every already-placed event of smaller or equal
time: exactly the placement a stable sort gives the latest element. -/
def insertByTime (e : Event) : List Event → List Event
  | [] => [e]
  | f :: rest => if f.time ≤ e.time then f :: insertByTime e rest else e :: f :: rest

/-- Stable sort of the event list by the `time` field. -/
def sortByTime (l : List Event) : List Event :=
  l.foldl (fun acc e => insertByTime e acc) []

/-! ## Transpose / flag pass of the mido-only path (lines 197-211): no
black-key remapping happens on this path. -/

/-- The per-event body of the transform loop at lines 202-211: add the total
transpose, refresh the group, and flag out-of-range notes (the initial
flag is `false`, and this loop has no `else` branch resetting it). -/
def midoApplyTranspose (mn mx total : Int) (e : Event) : Event :=
  let n := e.note + total
  let e1 := { e with note := n, group := group_for_note n }
  if n < mn then { e1 with is_over_limit := true }
  else if mx < n then { e1 with is_over_limit := true }
  else e1

/-- Number of events counted by the `under_min_count += 1` branch. -/
def underCount (mn total : Int) (evs : List Event) : Nat :=
  (evs.filter (fun e => decide (e.note + total < mn))).length

/-- Number of events counted by the `over_max_count += 1` branch (an `elif`,
so only events not already counted as under-range). -/
def overCount (mn mx total : Int) (evs : List Event) : Nat :=
  (evs.filter (fun e => decide (¬ e.note + total < mn ∧ mx < e.note + total))).length

/-- `min(events, key=lambda x: x['note'])['note']` over a possibly empty
list, as an `Option`. -/
def minNoteOf (evs : List Event) : Option Int := (evs.map Event.note).min?

/-- `max(events, key=lambda x: x['note'])['note']` over a possibly empty
list, as an `Option`. -/
def maxNoteOf (evs : List Event) : Option Int := (evs.map Event.note).max?

/-- The `analysis_result` dict built at lines 221-239 / 531-548, shared
shape of both paths; `warn`/`err` distinguish the variants. -/
def buildSummary (ks : KeySettings) (transpose octave_shift : Int)
    (evs : List Event) (under over : Nat) (warn err : Option String) : Summary :=
  let minv := minNoteOf evs
  let maxv := maxNoteOf evs
  { min_note := minv
    max_note := maxv
    under_min_count := under
    over_max_count := over
    min_note_name := (minv.map get_note_name).getD []
    max_note_name := (maxv.map get_note_name).getD []
    min_note_group := (minv.map group_for_note).getD ""
    max_note_group := (maxv.map group_for_note).getD ""
    is_min_over_limit := (minv.map (fun v => decide (v < ks.min_note))).getD false
    is_max_over_limit := (maxv.map (fun v => decide (ks.max_note < v))).getD false
    total_over_limit_count := under + over
    config_min_note := some ks.min_note
    config_max_note := some ks.max_note
    transpose := transpose
    octave_shift := octave_shift
    black_key_mode := some ks.black_key_mode
    warning := warn
    error := err }

/-- The mido-only analysis path (taken when `pretty_midi is None`, lines
119-242): scan the tempo, pair the notes of the selected tracks, apply the
transpose/flag loop, and return the events sorted by time together with the
summary (which carries the mido fallback warning). -/
def analyze_midi_file_mido (f : MidoFile) (selected_tracks : List Nat)
    (ks : KeySettings) (transpose octave_shift : Int) : List Event × Summary :=
  let tempo := scanTempo f.tracks
  let t2s := tick_to_second tempo f.ticks_per_beat
  let paired := pairTracks t2s f.tracks selected_tracks
  let total := transpose + octave_shift * 12
  let evs := paired.events.map (midoApplyTranspose ks.min_note ks.max_note total)
  (sortByTime evs,
   buildSummary ks transpose octave_shift evs
     (underCount ks.min_note total paired.events)
     (overCount ks.min_note ks.max_note total paired.events)
     (some "使用mido备选方案解析，可能与pretty_midi结果有所不同") none)

/-! ## Transform pass of the main path (lines 485-520): sort first, then
transpose, flag and black-key remap each event. -/

/-- The per-event body of the loop at lines 494-520: transpose, reset the
over-limit flag from the transposed value, then — only for non-over-limit
notes under `auto_sharp` — drop a semitone when the note's display name
contains `#`. -/
def applyTransposeBlackKey (ks : KeySettings) (total : Int) (e : Event) : Event :=
  let n := e.note + total
  let e1 := { e with note := n, group := group_for_note n }
  let e2 :=
    if n < ks.min_note then { e1 with is_over_limit := true }
    else if ks.max_note < n then { e1 with is_over_limit := true }
    else { e1 with is_over_limit := false }
  if e2.is_over_limit = false ∧ ks.black_key_mode = "auto_sharp" then
    if '#' ∈ get_note_name e2.note then
      { e2 with note := e2.note - 1, group := group_for_note (e2.note - 1) }
    else e2
  else e2

/-- Lines 490-520 of the main path: stable sort by time, then the transform
loop (which never changes times). -/
def mainTransformEvents (ks : KeySettings) (total : Int) (evs : List Event) : List Event :=
  (sortByTime evs).map (applyTransposeBlackKey ks total)

/-- Lines 485-560 of the main path: transform the collected raw events and
build the final summary (no `error`/`warning` key on this path). -/
def mainFinish (ks : KeySettings) (transpose octave_shift : Int)
    (raw : List Event) : List Event × Summary :=
  let total := transpose + octave_shift * 12
  let evs := mainTransformEvents ks total raw
  (evs,
   buildSummary ks transpose octave_shift evs
     (underCount ks.min_note total (sortByTime raw))
     (overCount ks.min_note ks.max_note total (sortByTime raw))
     none none)

/-! ## Top-level dispatch of `analyze_midi_file` -/

/-- The outcome of the file checks and parser fallbacks that surround the
pure computation: the file may be missing (line 83); with `pretty_midi`
absent the mido import/parse may fail (line 243) or succeed (line 124);
with `pretty_midi` present the load may fail with the mido fallback also
failing (lines 409-483, analysis continues on an empty event list), or raw
note events are produced (by `pretty_midi` itself or its nested mido
fallback) and flow into the main transform. -/
inductive ParseOutcome
  | missing
  | midoUnavailable
  | midoOnly (f : MidoFile)
  | loadFailedBothWays
  | loaded (raw : List Event)

/-- The summary returned when the file does not exist (lines 85-103):
config fields are `None` (settings were not read yet) and the `error` key
names the missing file. -/
def missingSummary (file_path : String) (transpose octave_shift : Int) : Summary :=
  { min_note := none, max_note := none, under_min_count := 0, over_max_count := 0,
    min_note_name := [], max_note_name := [], min_note_group := "", max_note_group := "",
    is_min_over_limit := false, is_max_over_limit := false, total_over_limit_count := 0,
    config_min_note := none, config_max_note := none,
    transpose := transpose, octave_shift := octave_shift, black_key_mode := none,
    warning := none, error := some ("文件不存在: " ++ file_path) }

/-- The summary returned when neither parser is available (lines 246-264). -/
def bothUnavailableSummary (ks : KeySettings) (transpose octave_shift : Int) : Summary :=
  { min_note := none, max_note := none, under_min_count := 0, over_max_count := 0,
    min_note_name := [], max_note_name := [], min_note_group := "", max_note_group := "",
    is_min_over_limit := false, is_max_over_limit := false, total_over_limit_count := 0,
    config_min_note := some ks.min_note, config_max_note := some ks.max_note,
    transpose := transpose, octave_shift := octave_shift,
    black_key_mode := some ks.black_key_mode,
    warning := none, error := some "pretty_midi和mido都不可用" }

/-- `MidiAnalyzer.analyze_midi_file`: dispatch over the file check and the
parser fallback chain.  In the `loaded` case the code overwrote
`selected_tracks` with all instrument indices (line 270), so the selection
argument is ignored there and `raw` already holds every instrument's events. -/
def analyze_midi_file (file_path : String) (outcome : ParseOutcome)
    (selected_tracks : List Nat) (ks : KeySettings)
    (transpose octave_shift : Int) : List Event × Summary :=
  match outcome with
  | ParseOutcome.missing => ([], missingSummary file_path transpose octave_shift)
  | ParseOutcome.midoUnavailable => ([], bothUnavailableSummary ks transpose octave_shift)
  | ParseOutcome.midoOnly f => analyze_midi_file_mido f selected_tracks ks transpose octave_shift
  | ParseOutcome.loadFailedBothWays => mainFinish ks transpose octave_shift []
  | ParseOutcome.loaded raw => mainFinish ks transpose octave_shift raw

/-- The event list shape the pairing engine guarantees: consecutive
(note_on, note_off) pairs agreeing on velocity, note, channel and track. -/
inductive GoodPairs : List Event → Prop
  | nil : GoodPairs []
  | cons {a b : Event} {rest : List Event} :
      a.type = EvType.note_on → b.type = EvType.note_off →
      a.velocity = b.velocity → a.note = b.note → a.channel = b.channel →
      a.track = b.track → GoodPairs rest → GoodPairs (a :: b :: rest)


/-- Rewrite the velocity of every `note_off` message by `g`, leaving all other
messages untouched. -/
def mapOffVel (g : Nat → Nat) (m : Msg) : Msg :=
  if m.kind = MsgKind.note_off then { m with velocity := g m.velocity } else m

/-- Apply `mapOffVel` across a whole parsed file. -/
def fileMapOffVel (g : Nat → Nat) (f : MidoFile) : MidoFile :=
  { f with tracks := f.tracks.map (List.map (mapOffVel g)) }

/-! ## Concrete inputs used by counterexamples and witnesses -/

/-- The default key settings (config.json defaults: 48, 83, auto_sharp). -/
def ks0 : KeySettings := { min_note := 48, max_note := 83, black_key_mode := "auto_sharp" }

/-- Key settings whose lower bound is the black key C#3 (note 49). -/
def ks5 : KeySettings := { min_note := 49, max_note := 83, black_key_mode := "auto_sharp" }

/-- Key settings whose range reaches above the naming-table maximum 108. -/
def ks6 : KeySettings := { min_note := 48, max_note := 120, black_key_mode := "auto_sharp" }

/-- A `note_on` message with the given delta-time, channel, note, velocity. -/
def onMsg (delta ch note vel : Nat) : Msg :=
  { kind := MsgKind.note_on, time := delta, channel := ch, note := note,
    velocity := vel, tempo := 0 }

/-- A `note_off` message with the given delta-time, channel and note. -/
def offMsg (delta ch note : Nat) : Msg :=
  { kind := MsgKind.note_off, time := delta, channel := ch, note := note,
    velocity := 64, tempo := 0 }

/-- Single track, note 60 pressed and released at tick 0 (zero-length note). -/
def file1 : MidoFile :=
  { ticks_per_beat := 480, tracks := [[onMsg 0 0 60 64, offMsg 0 0 60]] }

/-- Single track, two note-ons for (0, 60) at ticks 0 and 10, then two
note-offs at ticks 20 and 30: the overlapping same-pitch scenario. -/
def file2 : MidoFile :=
  { ticks_per_beat := 480,
    tracks := [[onMsg 0 0 60 64, onMsg 10 0 60 70, offMsg 10 0 60, offMsg 10 0 60]] }

/-- The spec's concrete scenario: PPQN 480, default tempo, note 60 on at
tick 0 with velocity 64 and off at tick 480, channel 0, single track. -/
def file3 : MidoFile :=
  { ticks_per_beat := 480, tracks := [[onMsg 0 0 60 64, offMsg 480 0 60]] }

/-- The note_on event the analyzer actually produces for `file3`. -/
def ev3on : Event :=
  { time := 0, type := EvType.note_on, note := 60, channel := 0,
    group := "小字一组 (c¹-b¹)", track := 0, duration := some 2, endTime := some 2,
    velocity := 64, is_over_limit := false }

/-- The note_off event the analyzer actually produces for `file3`. -/
def ev3off : Event :=
  { time := 2, type := EvType.note_off, note := 60, channel := 0,
    group := "小字一组 (c¹-b¹)", track := 0, duration := none, endTime := none,
    velocity := 64, is_over_limit := false }

/-- A raw pre-transform event with the given note value, as the pretty_midi
note loop produces before the transform pass. -/
def rawEv (note : Int) : Event :=
  { time := 0, type := EvType.note_on, note := note, channel := 0,
    group := "", track := 0, duration := some 0, endTime := some 0,
    velocity := 64, is_over_limit := false }

/-- The tie-breaking rule claimed for returned event lists: a note_off at
some instant always stands before every note_on at the same instant. -/
def offBeforeOnAtTies (l : List Event) : Prop :=
  ∀ (i j : Nat) (hi : i < l.length) (hj : j < l.length),
    (l.get ⟨i, hi⟩).type = EvType.note_off → (l.get ⟨j, hj⟩).type = EvType.note_on →
    (l.get ⟨i, hi⟩).time = (l.get ⟨j, hj⟩).time → i < j

/-- The claimed flag law, read on the note value each returned event
actually carries. -/
def flagMatchesCarried (ks : KeySettings) (l : List Event) : Prop :=
  ∀ e ∈ l, e.is_over_limit = decide (e.note < ks.min_note ∨ ks.max_note < e.note)

/-! ## Helper lemmas: the stable sort -/

lemma mem_insertByTime {x e : Event} : ∀ {l : List Event},
    x ∈ insertByTime e l ↔ x = e ∨ x ∈ l := by
  intro l
  induction l with
  | nil => simp [insertByTime]
  | cons f rest ih =>
    by_cases h : f.time ≤ e.time
    · simp only [insertByTime, if_pos h, List.mem_cons, ih]
      try tauto
    · simp only [insertByTime, if_neg h, List.mem_cons]
      try tauto

lemma pairwise_insertByTime {e : Event} {l : List Event}
    (h : l.Pairwise (fun a b => a.time ≤ b.time)) :
    (insertByTime e l).Pairwise (fun a b => a.time ≤ b.time) := by
  induction l with
  | nil => simp [insertByTime]
  | cons f rest ih =>
    rcases List.pairwise_cons.mp h with ⟨hf, hrest⟩
    by_cases hle : f.time ≤ e.time
    · simp only [insertByTime, if_pos hle]
      refine List.pairwise_cons.mpr ⟨?_, ih hrest⟩
      intro x hx
      rcases mem_insertByTime.mp hx with rfl | hx
      · exact hle
      · exact hf x hx
    · simp only [insertByTime, if_neg hle]
      refine List.pairwise_cons.mpr ⟨?_, List.pairwise_cons.mpr ⟨hf, hrest⟩⟩
      intro x hx
      rcases List.mem_cons.mp hx with rfl | hx
      · exact le_of_not_le hle
      · exact le_trans (le_of_not_le hle) (hf x hx)

lemma pairwise_sortByTime_aux : ∀ (l acc : List Event),
    acc.Pairwise (fun a b => a.time ≤ b.time) →
    (l.foldl (fun acc e => insertByTime e acc) acc).Pairwise (fun a b => a.time ≤ b.time) := by
  intro l
  induction l with
  | nil => intro acc h; exact h
  | cons e rest ih => intro acc h; exact ih _ (pairwise_insertByTime h)

lemma pairwise_sortByTime (l : List Event) :
    (sortByTime l).Pairwise (fun a b => a.time ≤ b.time) :=
  pairwise_sortByTime_aux l [] List.Pairwise.nil

lemma mem_sortByTime_aux : ∀ (l acc : List Event) (x : Event),
    x ∈ l.foldl (fun acc e => insertByTime e acc) acc ↔ x ∈ l ∨ x ∈ acc := by
  intro l
  induction l with
  | nil => intro acc x; simp
  | cons e rest ih =>
    intro acc x
    rw [List.foldl_cons, ih]
    simp only [List.mem_cons, mem_insertByTime]
    tauto

lemma mem_sortByTime {x : Event} {l : List Event} : x ∈ sortByTime l ↔ x ∈ l := by
  unfold sortByTime
  rw [mem_sortByTime_aux]
  simp

/-! ## Helper lemmas: pairing only touches selected tracks -/

lemma mem_events_stepMsg {t2s : ℚ} {idx : Nat} {st : PairState} {m : Msg} {e : Event}
    (h : e ∈ (stepMsg t2s idx st m).events) : e ∈ st.events ∨ e.track = idx := by
  unfold stepMsg at h
  split at h
  · exact Or.inl h
  · split at h
    · split at h
      · simp only [List.mem_append, List.mem_cons, List.not_mem_nil, or_false] at h
        rcases h with h | rfl | rfl
        · exact Or.inl h
        · exact Or.inr rfl
        · exact Or.inr rfl
      · exact Or.inl h
    · exact Or.inl h

lemma mem_events_foldMsgs {t2s : ℚ} {idx : Nat} : ∀ (msgs : List Msg) (st : PairState)
    (e : Event), e ∈ (msgs.foldl (stepMsg t2s idx) st).events →
    e ∈ st.events ∨ e.track = idx := by
  intro msgs
  induction msgs with
  | nil => intro st e h; exact Or.inl h
  | cons m rest ih =>
    intro st e h
    rcases ih _ _ h with h' | h'
    · exact mem_events_stepMsg h'
    · exact Or.inr h'

lemma mem_events_processTrack {t2s : ℚ} {idx : Nat} {msgs : List Msg} {acc : PairAcc}
    {e : Event} (h : e ∈ (processTrack t2s idx msgs acc).events) :
    e ∈ acc.events ∨ e.track = idx := by
  unfold processTrack at h
  exact mem_events_foldMsgs msgs _ e h

lemma mem_events_selFoldl {t2s : ℚ} {tracks : List (List Msg)} :
    ∀ (sel : List Nat) (acc : PairAcc) (S : List Nat),
    (∀ e ∈ acc.events, e.track ∈ S) → (∀ i ∈ sel, i ∈ S) →
    ∀ e ∈ (sel.foldl
      (fun acc idx =>
        if idx < tracks.length then processTrack t2s idx (tracks.getD idx []) acc else acc)
      acc).events, e.track ∈ S := by
  intro sel
  induction sel with
  | nil => intro acc S hacc _ e he; exact hacc e he
  | cons idx rest ih =>
    intro acc S hacc hsel e he
    rw [List.foldl_cons] at he
    refine ih _ S ?_ (fun i hi => hsel i (List.mem_cons_of_mem _ hi)) e he
    intro x hx
    by_cases hlt : idx < tracks.length
    · rw [if_pos hlt] at hx
      rcases mem_events_processTrack hx with h' | h'
      · exact hacc x h'
      · rw [h']; exact hsel idx (List.mem_cons_self _ _)
    · rw [if_neg hlt] at hx
      exact hacc x hx

lemma mem_events_pairTracks {t2s : ℚ} {tracks : List (List Msg)} {sel : List Nat}
    {e : Event} (h : e ∈ (pairTracks t2s tracks sel).events) : e.track ∈ sel := by
  unfold pairTracks at h
  exact mem_events_selFoldl sel { active := [], events := [] } sel
    (by intro x hx; simp at hx) (fun i hi => hi) e h

/-! ## Helper lemmas: field preservation by the transforms -/

lemma time_midoApplyTranspose (mn mx total : Int) (e : Event) :
    (midoApplyTranspose mn mx total e).time = e.time := by
  unfold midoApplyTranspose
  dsimp only
  split_ifs <;> rfl

lemma track_midoApplyTranspose (mn mx total : Int) (e : Event) :
    (midoApplyTranspose mn mx total e).track = e.track := by
  unfold midoApplyTranspose
  dsimp only
  split_ifs <;> rfl

lemma proj_midoApplyTranspose (mn mx total : Int) (e : Event) :
    ((midoApplyTranspose mn mx total e).type,
     (midoApplyTranspose mn mx total e).time,
     (midoApplyTranspose mn mx total e).velocity) = (e.type, e.time, e.velocity) := by
  unfold midoApplyTranspose
  dsimp only
  split_ifs <;> rfl

lemma time_applyTransposeBlackKey (ks : KeySettings) (total : Int) (e : Event) :
    (applyTransposeBlackKey ks total e).time = e.time := by
  unfold applyTransposeBlackKey
  dsimp only
  split_ifs <;> rfl

/-! ## Helper lemmas: note names and groups -/

lemma sharp_name_iff (n : Int) (h1 : 21 ≤ n) (h2 : n ≤ 108) :
    '#' ∈ get_note_name n ↔ n % 12 ∈ ([1, 3, 6, 8, 10] : List Int) := by
  interval_cases n <;> decide

lemma group_for_note_outside (n : Int) (h : n < 21 ∨ 108 < n) :
    group_for_note n = "未知" := by
  have hnone : GROUPS.find? (fun g => decide (g.2.1 ≤ n ∧ n ≤ g.2.2)) = none := by
    rw [List.find?_eq_none]
    intro g hg
    fin_cases hg <;> simp <;> omega
  unfold group_for_note
  rw [hnone]

/-! ## Helper lemmas: emitted events come in matched on/off pairs -/

lemma GoodPairs.append_pair {l : List Event} (h : GoodPairs l) {a b : Event}
    (h1 : a.type = EvType.note_on) (h2 : b.type = EvType.note_off)
    (h3 : a.velocity = b.velocity) (h4 : a.note = b.note)
    (h5 : a.channel = b.channel) (h6 : a.track = b.track) :
    GoodPairs (l ++ [a, b]) := by
  induction h with
  | nil => exact GoodPairs.cons h1 h2 h3 h4 h5 h6 GoodPairs.nil
  | cons g1 g2 g3 g4 g5 g6 _ ih => exact GoodPairs.cons g1 g2 g3 g4 g5 g6 ih

lemma goodPairs_stepMsg {t2s : ℚ} {idx : Nat} {st : PairState} {m : Msg}
    (h : GoodPairs st.events) : GoodPairs (stepMsg t2s idx st m).events := by
  unfold stepMsg
  dsimp only
  split_ifs
  · exact h
  · split
    · exact h.append_pair rfl rfl rfl rfl rfl rfl
    · exact h
  · exact h

lemma goodPairs_foldMsgs {t2s : ℚ} {idx : Nat} : ∀ (msgs : List Msg) (st : PairState),
    GoodPairs st.events → GoodPairs ((msgs.foldl (stepMsg t2s idx) st).events) := by
  intro msgs
  induction msgs with
  | nil => intro st h; exact h
  | cons m rest ih => intro st h; exact ih _ (goodPairs_stepMsg h)

lemma goodPairs_selFoldl {t2s : ℚ} {tracks : List (List Msg)} :
    ∀ (sel : List Nat) (acc : PairAcc), GoodPairs acc.events →
    GoodPairs ((sel.foldl
      (fun acc idx =>
        if idx < tracks.length then processTrack t2s idx (tracks.getD idx []) acc else acc)
      acc).events) := by
  intro sel
  induction sel with
  | nil => intro acc h; exact h
  | cons idx rest ih =>
    intro acc h
    rw [List.foldl_cons]
    refine ih _ ?_
    by_cases hlt : idx < tracks.length
    · rw [if_pos hlt]
      exact goodPairs_foldMsgs _ _ h
    · rw [if_neg hlt]
      exact h

lemma goodPairs_pairTracks (t2s : ℚ) (tracks : List (List Msg)) (sel : List Nat) :
    GoodPairs (pairTracks t2s tracks sel).events := by
  unfold pairTracks
  exact goodPairs_selFoldl sel _ GoodPairs.nil

/-! ## Helper lemmas: note-off message velocities are never read -/

lemma firstTempo_mapOffVel (g : Nat → Nat) : ∀ (msgs : List Msg),
    firstTempo (msgs.map (mapOffVel g)) = firstTempo msgs := by
  intro msgs
  induction msgs with
  | nil => rfl
  | cons m rest ih =>
    by_cases h : m.kind = MsgKind.note_off
    · simp [firstTempo, mapOffVel, h, ih]
    · simp [firstTempo, mapOffVel, h, ih]

lemma scanTempo_mapOffVel (g : Nat → Nat) : ∀ (tracks : List (List Msg)),
    scanTempo (tracks.map (List.map (mapOffVel g))) = scanTempo tracks := by
  intro tracks
  induction tracks with
  | nil => rfl
  | cons tr rest ih =>
    simp only [List.map_cons, scanTempo, firstTempo_mapOffVel]
    cases firstTempo tr with
    | none => exact ih
    | some t =>
      by_cases h : t = 500000
      · simp [h, ih]
      · simp [h]

lemma stepMsg_mapOffVel (g : Nat → Nat) (t2s : ℚ) (idx : Nat) (st : PairState) (m : Msg) :
    stepMsg t2s idx st (mapOffVel g m) = stepMsg t2s idx st m := by
  by_cases h : m.kind = MsgKind.note_off
  · simp [stepMsg, mapOffVel, h]
  · simp [mapOffVel, h]

lemma foldMsgs_mapOffVel (g : Nat → Nat) (t2s : ℚ) (idx : Nat) : ∀ (msgs : List Msg)
    (st : PairState), (msgs.map (mapOffVel g)).foldl (stepMsg t2s idx) st =
    msgs.foldl (stepMsg t2s idx) st := by
  intro msgs
  induction msgs with
  | nil => intro st; rfl
  | cons m rest ih =>
    intro st
    rw [List.map_cons, List.foldl_cons, List.foldl_cons, stepMsg_mapOffVel, ih]

lemma processTrack_mapOffVel (g : Nat → Nat) (t2s : ℚ) (idx : Nat) (msgs : List Msg)
    (acc : PairAcc) : processTrack t2s idx (msgs.map (mapOffVel g)) acc =
    processTrack t2s idx msgs acc := by
  unfold processTrack
  rw [foldMsgs_mapOffVel]

lemma getD_map_tracks (g : Msg → Msg) (tracks : List (List Msg)) (idx : Nat) :
    (tracks.map (List.map g)).getD idx [] = (tracks.getD idx []).map g := by
  induction tracks generalizing idx with
  | nil => simp [List.getD]
  | cons tr rest ih =>
    cases idx with
    | zero => simp [List.getD]
    | succ k =>
      simp only [List.map_cons, List.getD_cons_succ]
      exact ih k

lemma pairTracks_mapOffVel (g : Nat → Nat) (t2s : ℚ) (tracks : List (List Msg))
    (sel : List Nat) :
    pairTracks t2s (tracks.map (List.map (mapOffVel g))) sel = pairTracks t2s tracks sel := by
  unfold pairTracks
  congr 1
  funext acc idx
  rw [List.length_map, getD_map_tracks, processTrack_mapOffVel]

lemma analyze_mido_mapOffVel (g : Nat → Nat) (f : MidoFile) (sel : List Nat)
    (ks : KeySettings) (t o : Int) :
    analyze_midi_file_mido (fileMapOffVel g f) sel ks t o =
    analyze_midi_file_mido f sel ks t o := by
  unfold analyze_midi_file_mido fileMapOffVel
  dsimp only
  rw [scanTempo_mapOffVel, pairTracks_mapOffVel]

lemma group_60 : group_for_note 60 = "小字一组 (c¹-b¹)" := by decide

lemma scanTempo_file3 : scanTempo file3.tracks = 500000 := by decide

lemma t2s_480 : tick_to_second 500000 480 = 1 / 240 := by
  norm_num [tick_to_second, tempo2bpm]

lemma file3_eval : (analyze_midi_file_mido file3 [0] ks0 0 0).1 = [ev3on, ev3off] := by
  simp only [analyze_midi_file_mido, file3, ks0]
  simp [scanTempo, firstTempo, onMsg, offMsg, tick_to_second, tempo2bpm,
    pairTracks, processTrack, stepMsg, dictSet, dictGet, dictDel,
    midoApplyTranspose, sortByTime, insertByTime, group_60]
  norm_num [ev3on, ev3off]

/-- The analyzer's output on the zero-length note of `file1`: the note_on
comes first even though a note_off shares its time. -/
lemma file1_eval : (analyze_midi_file_mido file1 [0] ks0 0 0).1 =
    [{ time := 0, type := EvType.note_on, note := 60, channel := 0,
       group := "小字一组 (c¹-b¹)", track := 0, duration := some 0, endTime := some 0,
       velocity := 64, is_over_limit := false },
     { time := 0, type := EvType.note_off, note := 60, channel := 0,
       group := "小字一组 (c¹-b¹)", track := 0, duration := none, endTime := none,
       velocity := 64, is_over_limit := false }] := by
  simp only [analyze_midi_file_mido, file1, ks0]
  simp [scanTempo, firstTempo, onMsg, offMsg, tick_to_second, tempo2bpm,
    pairTracks, processTrack, stepMsg, dictSet, dictGet, dictDel,
    midoApplyTranspose, sortByTime, insertByTime, group_60]

/-- The analyzer's output on the overlapping same-pitch notes of `file2`:
a single span, starting at the second note-on (tick 10, i.e. 1/24 s with the
code's conversion), carrying the second note-on's velocity. -/
lemma file2_eval : (analyze_midi_file_mido file2 [0] ks0 0 0).1.map
    (fun e => (e.type, e.time, e.velocity)) =
    [(EvType.note_on, (1 / 24 : ℚ), 70), (EvType.note_off, (1 / 12 : ℚ), 70)] := by
  simp only [analyze_midi_file_mido, file2, ks0]
  simp [scanTempo, firstTempo, onMsg, offMsg, tick_to_second, tempo2bpm,
    pairTracks, processTrack, stepMsg, dictSet, dictGet, dictDel,
    midoApplyTranspose, sortByTime, insertByTime, group_60]
  norm_num

lemma mem_sharp_49 : '#' ∈ get_note_name (49 : Int) := by decide

lemma group_48 : group_for_note 48 = "小字组 (c-b)" := by decide

lemma not_sharp_111 : '#' ∉ get_note_name (111 : Int) := by decide

lemma group_111 : group_for_note 111 = "未知" := by decide

/-- Main-path transform on a note equal to a black-key `min_note` (49):
the note is remapped below the configured range while the flag stays false. -/
lemma ev49_eval : (analyze_midi_file "f" (ParseOutcome.loaded [rawEv 49]) [] ks5 0 0).1 =
    [{ time := 0, type := EvType.note_on, note := 48, channel := 0,
       group := "小字组 (c-b)", track := 0, duration := some 0, endTime := some 0,
       velocity := 64, is_over_limit := false }] := by
  simp only [analyze_midi_file, mainFinish, mainTransformEvents, ks5]
  simp [sortByTime, insertByTime, applyTransposeBlackKey, rawEv,
    mem_sharp_49, group_48]

/-- Main-path transform on note 111 (black pitch class, inside the configured
range of `ks6` but above the naming table): no remap happens. -/
lemma ev111_eval : (analyze_midi_file "f" (ParseOutcome.loaded [rawEv 111]) [] ks6 0 0).1 =
    [{ time := 0, type := EvType.note_on, note := 111, channel := 0,
       group := "未知", track := 0, duration := some 0, endTime := some 0,
       velocity := 64, is_over_limit := false }] := by
  simp only [analyze_midi_file, mainFinish, mainTransformEvents, ks6]
  simp [sortByTime, insertByTime, applyTransposeBlackKey, rawEv,
    not_sharp_111, group_111]

/-! ## Claim C1 -/

/-- C1 counterexample: on a zero-length note (on and off at tick 0) the
returned list is [note_on at 0, note_off at 0], so the note_off at time 0
does not precede the note_on at time 0 — the claimed tie rule fails. -/
theorem C1_counterexample :
    ¬ offBeforeOnAtTies (analyze_midi_file_mido file1 [0] ks0 0 0).1 := by
  rw [file1_eval]
  intro h
  have h10 := h 1 0 (by norm_num) (by norm_num) rfl rfl rfl
  exact absurd h10 (by decide)

/-- C1 (amended): every event list returned by `analyze_midi_file` (on any
branch of the dispatch) is non-decreasing in the `time` field; the sort is
by time alone, so the tie-break between note_off and note_on is only the
stable insertion order, not a guaranteed rule. -/
theorem C1_amended (file_path : String) (outcome : ParseOutcome) (sel : List Nat)
    (ks : KeySettings) (t o : Int) :
    ((analyze_midi_file file_path outcome sel ks t o).1).Pairwise
      (fun a b => a.time ≤ b.time) := by
  cases outcome with
  | missing => simp [analyze_midi_file]
  | midoUnavailable => simp [analyze_midi_file]
  | midoOnly f =>
    show ((analyze_midi_file_mido f sel ks t o).1).Pairwise _
    unfold analyze_midi_file_mido
    dsimp only
    exact pairwise_sortByTime _
  | loadFailedBothWays =>
    show ((mainFinish ks t o []).1).Pairwise _
    unfold mainFinish mainTransformEvents
    dsimp only
    rw [List.pairwise_map]
    refine (pairwise_sortByTime _).imp ?_
    intro a b hab
    simpa [time_applyTransposeBlackKey] using hab
  | loaded raw =>
    show ((mainFinish ks t o raw).1).Pairwise _
    unfold mainFinish mainTransformEvents
    dsimp only
    rw [List.pairwise_map]
    refine (pairwise_sortByTime _).imp ?_
    intro a b hab
    simpa [time_applyTransposeBlackKey] using hab

/-! ## Claim C2 -/

/-- C2 counterexample: for two same-key note-ons (ticks 0 and 10) followed by
two note-offs (ticks 20 and 30), the analyzer returns only TWO events, both
carrying the second note-on's data (start 1/24 s, velocity 70): the first
note-on is lost by the dict overwrite, so no four-event FIFO pairing exists. -/
theorem C2_counterexample :
    (analyze_midi_file_mido file2 [0] ks0 0 0).1.map
        (fun e => (e.type, e.time, e.velocity)) =
      [(EvType.note_on, (1 / 24 : ℚ), 70), (EvType.note_off, (1 / 12 : ℚ), 70)] ∧
    (analyze_midi_file_mido file2 [0] ks0 0 0).1.length ≠ 4 := by
  refine ⟨file2_eval, ?_⟩
  have h := congrArg List.length file2_eval
  simp only [List.length_map, List.length_cons, List.length_nil] at h
  omega

lemma sortByTime_pair {x y : Event} (h : x.time ≤ y.time) : sortByTime [x, y] = [x, y] := by
  simp [sortByTime, insertByTime, h]

lemma t2s_nonneg (tempo tpb : Nat) : 0 ≤ tick_to_second tempo tpb := by
  unfold tick_to_second tempo2bpm
  positivity

lemma map_proj_sort_pair (mn mx total : Int) {x y : Event} (h : x.time ≤ y.time) :
    (sortByTime (([x, y]).map (midoApplyTranspose mn mx total))).map
        (fun e => (e.type, e.time, e.velocity)) =
      [(x.type, x.time, x.velocity), (y.type, y.time, y.velocity)] := by
  rw [List.map_cons, List.map_cons, List.map_nil,
    sortByTime_pair (by rw [time_midoApplyTranspose, time_midoApplyTranspose]; exact h)]
  simp [proj_midoApplyTranspose]

/-- C2 (amended): with two note-ons for the same (channel, note) key before
any note-off, the second note-on OVERWRITES the first in the `active_notes`
dict; the first note-off pairs with the second note-on (its start time and
velocity), and the second note-off finds no entry and is dropped — one span,
two events, not the claimed FIFO four. -/
theorem C2_amended (tpb a b c d ch n v1 v2 : Nat) (ks : KeySettings)
    (hv1 : 0 < v1) (hv2 : 0 < v2) :
    (analyze_midi_file_mido
        { ticks_per_beat := tpb,
          tracks := [[onMsg a ch n v1, onMsg b ch n v2, offMsg c ch n, offMsg d ch n]] }
        [0] ks 0 0).1.map (fun e => (e.type, e.time, e.velocity)) =
      [(EvType.note_on, ((a + b : Nat) : ℚ) * tick_to_second 500000 tpb, v2),
       (EvType.note_off, ((a + b + c : Nat) : ℚ) * tick_to_second 500000 tpb, v2)] := by
  have hscan : scanTempo [[onMsg a ch n v1, onMsg b ch n v2, offMsg c ch n, offMsg d ch n]]
      = 500000 := by
    simp [scanTempo, firstTempo, onMsg, offMsg]
  have hpair : (pairTracks (tick_to_second 500000 tpb)
      [[onMsg a ch n v1, onMsg b ch n v2, offMsg c ch n, offMsg d ch n]] [0]).events =
      [{ time := ((a + b : Nat) : ℚ) * tick_to_second 500000 tpb, type := EvType.note_on,
         note := (n : Int), channel := ch, group := group_for_note (n : Int), track := 0,
         duration := some (((a + b + c : Nat) : ℚ) * tick_to_second 500000 tpb
           - ((a + b : Nat) : ℚ) * tick_to_second 500000 tpb),
         endTime := some (((a + b + c : Nat) : ℚ) * tick_to_second 500000 tpb),
         velocity := v2, is_over_limit := false },
       { time := ((a + b + c : Nat) : ℚ) * tick_to_second 500000 tpb,
         type := EvType.note_off, note := (n : Int), channel := ch,
         group := group_for_note (n : Int), track := 0, duration := none, endTime := none,
         velocity := v2, is_over_limit := false }] := by
    simp [pairTracks, processTrack, stepMsg, onMsg, offMsg, dictSet, dictGet, dictDel,
      hv1, hv2]
  have hle : (((a + b : Nat) : ℚ) * tick_to_second 500000 tpb) ≤
      (((a + b + c : Nat) : ℚ) * tick_to_second 500000 tpb) := by
    apply mul_le_mul_of_nonneg_right _ (t2s_nonneg _ _)
    exact_mod_cast Nat.le_add_right (a + b) c
  unfold analyze_midi_file_mido
  dsimp only
  rw [hscan, hpair, map_proj_sort_pair _ _ _ hle]

/-- C2 witness: the amended overwrite behaviour at the concrete overlapping
scenario (velocities 64 and 70, ticks 0/10/20/30, PPQN 480). -/
theorem C2_witness :
    (0 : Nat) < 64 ∧ (0 : Nat) < 70 ∧
    (analyze_midi_file_mido
        { ticks_per_beat := 480,
          tracks := [[onMsg 0 0 60 64, onMsg 10 0 60 70, offMsg 10 0 60, offMsg 10 0 60]] }
        [0] ks0 0 0).1.map (fun e => (e.type, e.time, e.velocity)) =
      [(EvType.note_on, ((0 + 10 : Nat) : ℚ) * tick_to_second 500000 480, 70),
       (EvType.note_off, ((0 + 10 + 10 : Nat) : ℚ) * tick_to_second 500000 480, 70)] :=
  ⟨by norm_num, by norm_num,
   C2_amended 480 0 10 10 10 0 60 64 70 ks0 (by norm_num) (by norm_num)⟩

/-! ## Claim C3 -/

/-- C3: evaluating the code on the spec's concrete scenario (PPQN 480, tempo
500000, note 60 on at tick 0 and off at tick 480).  The code does return
exactly two events with note 60, but the mido conversion factor is inverted:
the note_off lands at 2.0 s (duration 2.0) instead of the claimed 0.5 s. -/
theorem C3_code_result :
    (analyze_midi_file_mido file3 [0] ks0 0 0).1.map
        (fun e => (e.type, e.time, e.note, e.duration, e.endTime)) =
      [(EvType.note_on, (0 : ℚ), (60 : Int), some (2 : ℚ), some (2 : ℚ)),
       (EvType.note_off, (2 : ℚ), (60 : Int), none, none)] := by
  rw [file3_eval]
  rfl

/-! ## Claim C4 -/

/-- C4 counterexample: a file whose track 0 holds a complete note analyzed
with an empty selection returns NO events — not the events of all tracks the
claim promises for an empty `selected_tracks`. -/
theorem C4_counterexample : (analyze_midi_file_mido file3 [] ks0 0 0).1 = [] := rfl

/-- C4 (amended): in the mido path every returned event's track index is a
member of `selected_tracks`, and an empty selection yields an empty event
list (not all tracks); in the pretty_midi path the selection argument is
ignored outright (line 270 overwrites it), so the result does not depend
on it. -/
theorem C4_amended (f : MidoFile) (sel : List Nat) (ks : KeySettings) (t o : Int) :
    (∀ e ∈ (analyze_midi_file_mido f sel ks t o).1, e.track ∈ sel) ∧
    (sel = [] → (analyze_midi_file_mido f sel ks t o).1 = []) ∧
    (∀ (fp : String) (raw : List Event) (sel' : List Nat),
      analyze_midi_file fp (ParseOutcome.loaded raw) sel ks t o =
        analyze_midi_file fp (ParseOutcome.loaded raw) sel' ks t o) := by
  refine ⟨?_, ?_, ?_⟩
  · intro e he
    unfold analyze_midi_file_mido at he
    dsimp only at he
    rw [mem_sortByTime] at he
    rcases List.mem_map.mp he with ⟨e0, he0, rfl⟩
    rw [track_midoApplyTranspose]
    exact mem_events_pairTracks he0
  · intro hsel
    subst hsel
    rfl
  · intro fp raw sel'
    rfl

/-- C4 witness: the amended membership property at the concrete `file3`. -/
theorem C4_witness :
    ev3on ∈ (analyze_midi_file_mido file3 [0] ks0 0 0).1 ∧
    ev3on.track ∈ ([0] : List Nat) := by
  have hm : ev3on ∈ (analyze_midi_file_mido file3 [0] ks0 0 0).1 := by
    rw [file3_eval]
    exact List.mem_cons_self _ _
  exact ⟨hm, (C4_amended file3 [0] ks0 0 0).1 ev3on hm⟩

/-! ## Claim C5 -/

/-- C5 counterexample: with `min_note = 49` (a black key) and auto_sharp
mode, an event whose post-transpose note is 49 is remapped to 48, so the
returned event carries note 48 with `is_over_limit = false`, yet
48 < config_min_note — the claimed equality fails on the carried note. -/
theorem C5_counterexample :
    ¬ flagMatchesCarried ks5
      (analyze_midi_file "f" (ParseOutcome.loaded [rawEv 49]) [] ks5 0 0).1 := by
  rw [ev49_eval]
  intro h
  have h0 := h _ (List.mem_cons_self _ _)
  simp [ks5] at h0

/-- C5 (amended): in the main transform the `is_over_limit` flag equals the
range predicate evaluated on the post-transpose, PRE-remap note value
`e.note + total` (under auto_sharp the carried note may afterwards drop one
semitone below that value). -/
theorem C5_amended (ks : KeySettings) (total : Int) (e : Event) :
    (applyTransposeBlackKey ks total e).is_over_limit =
      decide (e.note + total < ks.min_note ∨ ks.max_note < e.note + total) := by
  unfold applyTransposeBlackKey
  dsimp only
  by_cases h1 : e.note + total < ks.min_note
  · simp [h1]
  · by_cases h2 : ks.max_note < e.note + total
    · simp [h1, h2]
    · simp only [if_neg h1, if_neg h2]
      split_ifs <;> simp [h1, h2]

/-! ## Claim C6 -/

/-- C6 counterexample: note 111 has black pitch class 3 and lies inside the
configured range [48, 120] of `ks6`, yet the returned note is 111, not the
claimed 110 — the remap tests `'#' ∈ get_note_name`, which prints a bare
integer (no sharp) outside the naming table's [21, 108]. -/
theorem C6_counterexample :
    (analyze_midi_file "f" (ParseOutcome.loaded [rawEv 111]) [] ks6 0 0).1.map Event.note
        = [(111 : Int)] ∧
    (111 : Int) % 12 = 3 ∧ ks6.min_note ≤ 111 ∧ (111 : Int) ≤ ks6.max_note ∧
    ks6.black_key_mode = "auto_sharp" := by
  refine ⟨?_, by norm_num, by norm_num [ks6], by norm_num [ks6], rfl⟩
  rw [ev111_eval]
  rfl

/-- C6 (amended): under auto_sharp, for events whose post-transpose note is
inside the configured range AND inside the naming table's [21, 108], a black
pitch class ({1,3,6,8,10} mod 12) is remapped exactly one semitone down and a
natural (white) note is unchanged; over-limit events are never remapped. -/
theorem C6_amended :
    (∀ (ks : KeySettings) (total : Int) (e : Event),
      ks.black_key_mode = "auto_sharp" →
      ks.min_note ≤ e.note + total → e.note + total ≤ ks.max_note →
      21 ≤ e.note + total → e.note + total ≤ 108 →
      (applyTransposeBlackKey ks total e).note =
        (if (e.note + total) % 12 ∈ ([1, 3, 6, 8, 10] : List Int)
         then e.note + total - 1 else e.note + total)) ∧
    (∀ (ks : KeySettings) (total : Int) (e : Event),
      (e.note + total < ks.min_note ∨ ks.max_note < e.note + total) →
      (applyTransposeBlackKey ks total e).note = e.note + total) := by
  constructor
  · intro ks total e hmode hlo hhi h21 h108
    have h1 : ¬ (e.note + total < ks.min_note) := by omega
    have h2 : ¬ (ks.max_note < e.note + total) := by omega
    by_cases hb : (e.note + total) % 12 ∈ ([1, 3, 6, 8, 10] : List Int)
    · have hs := (sharp_name_iff _ h21 h108).mpr hb
      simp [applyTransposeBlackKey, h1, h2, hmode, hs, hb]
    · have hs : '#' ∉ get_note_name (e.note + total) :=
        fun hx => hb ((sharp_name_iff _ h21 h108).mp hx)
      simp [applyTransposeBlackKey, h1, h2, hmode, hs, hb]
  · intro ks total e h
    rcases h with h | h
    · simp [applyTransposeBlackKey, h]
    · by_cases h1 : e.note + total < ks.min_note
      · simp [applyTransposeBlackKey, h1]
      · simp [applyTransposeBlackKey, h1, h]

/-- C6 witness: the amended remap law at note 61 (black, remapped to 60) and
the no-remap law at the over-limit note 200, both under the default config. -/
theorem C6_witness :
    ((applyTransposeBlackKey ks0 0 (rawEv 61)).note =
      (if ((rawEv 61).note + 0) % 12 ∈ ([1, 3, 6, 8, 10] : List Int)
       then (rawEv 61).note + 0 - 1 else (rawEv 61).note + 0)) ∧
    ((applyTransposeBlackKey ks0 0 (rawEv 200)).note = (rawEv 200).note + 0) :=
  ⟨C6_amended.1 ks0 0 (rawEv 61) rfl (by norm_num [rawEv, ks0]) (by norm_num [rawEv, ks0])
      (by norm_num [rawEv]) (by norm_num [rawEv]),
   C6_amended.2 ks0 0 (rawEv 200) (by norm_num [rawEv, ks0])⟩

/-! ## Claim C7 -/

/-- C7: for every dispatch outcome, selection, settings and integers t, o,
the event list of `analyze_midi_file` with `transpose = t, octave_shift = o`
equals (fields included, hence note values included) the event list with
`transpose = t + 12*o, octave_shift = 0`: the code only ever uses
`transpose + octave_shift * 12`. -/
theorem C7_octave_composition (fp : String) (outcome : ParseOutcome) (sel : List Nat)
    (ks : KeySettings) (t o : Int) :
    (analyze_midi_file fp outcome sel ks t o).1 =
      (analyze_midi_file fp outcome sel ks (t + 12 * o) 0).1 := by
  have htot : t + o * 12 = (t + 12 * o) + 0 * 12 := by ring
  cases outcome with
  | missing => rfl
  | midoUnavailable => rfl
  | midoOnly f =>
    show (analyze_midi_file_mido f sel ks t o).1 =
      (analyze_midi_file_mido f sel ks (t + 12 * o) 0).1
    unfold analyze_midi_file_mido
    dsimp only
    rw [htot]
  | loadFailedBothWays =>
    show (mainFinish ks t o []).1 = (mainFinish ks (t + 12 * o) 0 []).1
    unfold mainFinish
    dsimp only
    rw [htot]
  | loaded raw =>
    show (mainFinish ks t o raw).1 = (mainFinish ks (t + 12 * o) 0 raw).1
    unfold mainFinish
    dsimp only
    rw [htot]

/-! ## Claim C8 -/

/-- C8 counterexample: when the pretty_midi load fails and the mido fallback
fails too, `analyze_midi_file` returns an empty event list with a NORMAL
summary — its `error` field is absent — so this file-level parse failure is
reported as a silently empty success, contradicting the claim. -/
theorem C8_counterexample :
    (analyze_midi_file "song.mid" ParseOutcome.loadFailedBothWays [] ks0 0 0).1 = [] ∧
    (analyze_midi_file "song.mid" ParseOutcome.loadFailedBothWays [] ks0 0 0).2.error
      = none :=
  ⟨rfl, rfl⟩

/-- C8 (amended): file-not-found and no-parser-available failures do return
an empty list with an explicit `error` field, but a pretty_midi load failure
whose mido fallback also fails degrades to an empty list with no error
indicator at all. -/
theorem C8_amended (fp : String) (sel : List Nat) (ks : KeySettings) (t o : Int) :
    ((analyze_midi_file fp ParseOutcome.missing sel ks t o).1 = [] ∧
      (analyze_midi_file fp ParseOutcome.missing sel ks t o).2.error =
        some ("文件不存在: " ++ fp)) ∧
    ((analyze_midi_file fp ParseOutcome.midoUnavailable sel ks t o).1 = [] ∧
      (analyze_midi_file fp ParseOutcome.midoUnavailable sel ks t o).2.error =
        some "pretty_midi和mido都不可用") ∧
    ((analyze_midi_file fp ParseOutcome.loadFailedBothWays sel ks t o).1 = [] ∧
      (analyze_midi_file fp ParseOutcome.loadFailedBothWays sel ks t o).2.error = none) :=
  ⟨⟨rfl, rfl⟩, ⟨rfl, rfl⟩, ⟨rfl, rfl⟩⟩

/-! ## Claim C9 -/

/-- C9: every note in [21, 108] gets exactly one of the nine group labels
(its range filter hits exactly one of the nine ranges — no gaps, no
overlaps), and every note outside [21, 108] gets the unknown label 未知. -/
theorem C9_groups (n : Int) :
    (21 ≤ n → n ≤ 108 →
      group_for_note n ∈ GROUPS.map (fun g => g.1) ∧
      (GROUPS.filter (fun g => decide (g.2.1 ≤ n ∧ n ≤ g.2.2))).length = 1) ∧
    (n < 21 ∨ 108 < n → group_for_note n = "未知") := by
  constructor
  · intro h1 h2
    interval_cases n <;> exact ⟨by decide, by decide⟩
  · exact group_for_note_outside n

/-- C9 witness: the partition law at note 60 and the unknown label at 300. -/
theorem C9_witness :
    (group_for_note 60 ∈ GROUPS.map (fun g => g.1) ∧
      (GROUPS.filter (fun g => decide (g.2.1 ≤ (60 : Int) ∧ (60 : Int) ≤ g.2.2))).length
        = 1) ∧
    group_for_note 300 = "未知" :=
  ⟨(C9_groups 60).1 (by norm_num) (by norm_num), (C9_groups 300).2 (by norm_num)⟩

/-! ## Claim C10 -/

/-- C10: the pairing pass emits events in consecutive (note_on, note_off)
pairs agreeing on velocity (and note, channel, track) — the note_off carries
the velocity recorded at its matching note-on — and rewriting the velocity
of every note_off MESSAGE arbitrarily leaves the whole mido analysis result
unchanged, so the note-off message's own velocity is never used. -/
theorem C10_off_velocity :
    (∀ (t2s : ℚ) (tracks : List (List Msg)) (sel : List Nat),
      GoodPairs (pairTracks t2s tracks sel).events) ∧
    (∀ (g : Nat → Nat) (f : MidoFile) (sel : List Nat) (ks : KeySettings) (t o : Int),
      analyze_midi_file_mido (fileMapOffVel g f) sel ks t o =
        analyze_midi_file_mido f sel ks t o) :=
  ⟨goodPairs_pairTracks, analyze_mido_mapOffVel⟩
